import Mathlib

/-!
Verification of the forest-regeneration utility scripts.

Part 1 embeds `quantify_seeds.py` (the SeedCounter): per input row the
script computes
  max_seed_count  = floor(available_weight * 1000 / min_weight)
  min_seed_count  = floor(available_weight * 1000 / max_weight)
  mean_seed_count = floor((min_seed_count + max_seed_count) / 2)
and prints the three numbers.  Weights are Python floats; they are
embedded as rationals, and Python's float division-by-zero error is
embedded as `Option.none`.  The printed output per record is embedded as
the returned tuple `(tree_name, min_seed_count, max_seed_count,
mean_seed_count)`.

Part 2 (below) embeds `random_tray_configs.py` and its near-duplicate
variant `random-tray-configs.py` (the TrayLayoutGenerator).
-/

/-- Embedding of one iteration of the loop body of `quantify_seeds`
(`quantify_seeds.py` lines 14-29).  The record is
`(tree_name, min_weight, max_weight, available_weight)`.  Python raises
`ZeroDivisionError` when a divisor is zero; this is embedded as `none`,
checked in the order in which the two divisions occur in the source. -/
def quantify_record (item : String × ℚ × ℚ × ℚ) : Option (String × ℤ × ℤ × ℤ) :=
  let tree_name := item.1
  let min_weight := item.2.1
  let max_weight := item.2.2.1
  let available_weight := item.2.2.2
  if min_weight = 0 then none
  else if max_weight = 0 then none
  else
    let max_seed_count : ℤ := ⌊available_weight * 1000 / min_weight⌋
    let min_seed_count : ℤ := ⌊available_weight * 1000 / max_weight⌋
    let mean_seed_count : ℤ := ⌊((min_seed_count + max_seed_count : ℤ) : ℚ) / 2⌋
    some (tree_name, min_seed_count, max_seed_count, mean_seed_count)

/-- Embedding of `quantify_seeds` (`quantify_seeds.py` lines 13-29): the
loop over `tree_dict`, producing one output tuple per record, aborting at
the first record whose division fails. -/
def quantify_seeds (tree_dict : List (String × ℚ × ℚ × ℚ)) :
    Option (List (String × ℤ × ℤ × ℤ)) :=
  tree_dict.mapM quantify_record

/-- Embedding of the `tree_dictionary` constant (`quantify_seeds.py`
lines 37-42). -/
def tree_dictionary : List (String × ℚ × ℚ × ℚ) :=
  [("Picea abies", 4, 8, 100),
   ("Pinus cembra", 150, 300, 2000),
   ("Acer pseudoplatanus", 100, 250, 3000),
   ("Sorbus aucuparia", 3.5, 5, 200)]

/-- The per-record estimate as a pure tuple, used to state what
`quantify_seeds` returns on well-formed input. -/
def seedEstimate (r : String × ℚ × ℚ × ℚ) : String × ℤ × ℤ × ℤ :=
  (r.1, ⌊r.2.2.2 * 1000 / r.2.2.1⌋, ⌊r.2.2.2 * 1000 / r.2.1⌋,
    ⌊((⌊r.2.2.2 * 1000 / r.2.2.1⌋ + ⌊r.2.2.2 * 1000 / r.2.1⌋ : ℤ) : ℚ) / 2⌋)

lemma quantify_record_eq_seedEstimate (r : String × ℚ × ℚ × ℚ)
    (hmin : r.2.1 ≠ 0) (hmax : r.2.2.1 ≠ 0) :
    quantify_record r = some (seedEstimate r) := by
  simp [quantify_record, seedEstimate, hmin, hmax]

lemma quantify_seeds_eq_map (records : List (String × ℚ × ℚ × ℚ))
    (h : ∀ r ∈ records, r.2.1 ≠ 0 ∧ r.2.2.1 ≠ 0) :
    quantify_seeds records = some (records.map seedEstimate) := by
  induction records with
  | nil => rfl
  | cons r rs ih =>
      have hr := h r (List.mem_cons_self r rs)
      have hrs : ∀ x ∈ rs, x.2.1 ≠ 0 ∧ x.2.2.1 ≠ 0 :=
        fun x hx => h x (List.mem_cons_of_mem r hx)
      simp only [quantify_seeds, List.mapM_cons] at *
      rw [quantify_record_eq_seedEstimate r hr.1 hr.2, ih hrs]
      rfl

/-- C2: for records with strictly positive min and max weights,
`quantify_seeds` returns one estimate per record, in input order, and per
record pairs `min_weight` with `max_seed_count` and `max_weight` with
`min_seed_count` (the inverse pairing), each computed with floor, with
`mean_seed_count = floor((min_seed_count + max_seed_count) / 2)`. -/
theorem quantify_seeds_pairing (records : List (String × ℚ × ℚ × ℚ))
    (hpos : ∀ r ∈ records, 0 < r.2.1 ∧ 0 < r.2.2.1) :
    quantify_seeds records =
      some (records.map fun r =>
        (r.1,
         ⌊r.2.2.2 * 1000 / r.2.2.1⌋,
         ⌊r.2.2.2 * 1000 / r.2.1⌋,
         ⌊((⌊r.2.2.2 * 1000 / r.2.2.1⌋ + ⌊r.2.2.2 * 1000 / r.2.1⌋ : ℤ) : ℚ) / 2⌋)) :=
  quantify_seeds_eq_map records
    (fun r hr => ⟨ne_of_gt (hpos r hr).1, ne_of_gt (hpos r hr).2⟩)

/-- Witness for C2 at the script's own `tree_dictionary`. -/
theorem quantify_seeds_pairing_witness :
    quantify_seeds tree_dictionary =
      some (tree_dictionary.map fun r =>
        (r.1,
         ⌊r.2.2.2 * 1000 / r.2.2.1⌋,
         ⌊r.2.2.2 * 1000 / r.2.1⌋,
         ⌊((⌊r.2.2.2 * 1000 / r.2.2.1⌋ + ⌊r.2.2.2 * 1000 / r.2.1⌋ : ℤ) : ℚ) / 2⌋)) :=
  quantify_seeds_pairing tree_dictionary (by
    intro r hr
    simp only [tree_dictionary, List.mem_cons, List.not_mem_nil, or_false] at hr
    rcases hr with h | h | h | h <;> subst h <;> constructor <;> norm_num)

/-- C3: on a record satisfying the input invariant (all weights positive,
`min_weight ≤ max_weight`) the computed estimate satisfies
`0 ≤ min_seed_count ≤ mean_seed_count ≤ max_seed_count`, so all three
counts are non-negative integers. -/
theorem quantify_record_ordered (name : String) (minW maxW avail : ℚ)
    (hmin : 0 < minW) (hmax : 0 < maxW) (havail : 0 < avail)
    (hle : minW ≤ maxW) :
    ∃ minC maxC meanC : ℤ,
      quantify_record (name, minW, maxW, avail) = some (name, minC, maxC, meanC)
      ∧ 0 ≤ minC ∧ 0 ≤ meanC ∧ 0 ≤ maxC ∧ minC ≤ meanC ∧ meanC ≤ maxC := by
  refine ⟨⌊avail * 1000 / maxW⌋, ⌊avail * 1000 / minW⌋,
    ⌊((⌊avail * 1000 / maxW⌋ + ⌊avail * 1000 / minW⌋ : ℤ) : ℚ) / 2⌋, ?_, ?_, ?_, ?_, ?_, ?_⟩
  · exact quantify_record_eq_seedEstimate (name, minW, maxW, avail)
      (ne_of_gt hmin) (ne_of_gt hmax)
  · exact Int.floor_nonneg.mpr (by positivity)
  · apply Int.floor_nonneg.mpr
    have h1 : (0 : ℤ) ≤ ⌊avail * 1000 / maxW⌋ := Int.floor_nonneg.mpr (by positivity)
    have h2 : (0 : ℤ) ≤ ⌊avail * 1000 / minW⌋ := Int.floor_nonneg.mpr (by positivity)
    have : (0 : ℚ) ≤ ((⌊avail * 1000 / maxW⌋ + ⌊avail * 1000 / minW⌋ : ℤ) : ℚ) := by
      exact_mod_cast add_nonneg h1 h2
    linarith
  · exact Int.floor_nonneg.mpr (by positivity)
  · apply Int.le_floor.mpr
    have hcount : ⌊avail * 1000 / maxW⌋ ≤ ⌊avail * 1000 / minW⌋ :=
      Int.floor_le_floor (div_le_div_of_nonneg_left (by positivity) hmin hle)
    have : ((⌊avail * 1000 / maxW⌋ : ℤ) : ℚ) ≤ ((⌊avail * 1000 / minW⌋ : ℤ) : ℚ) := by
      exact_mod_cast hcount
    push_cast
    linarith
  · have hcount : ⌊avail * 1000 / maxW⌋ ≤ ⌊avail * 1000 / minW⌋ :=
      Int.floor_le_floor (div_le_div_of_nonneg_left (by positivity) hmin hle)
    have hup : ((⌊avail * 1000 / maxW⌋ + ⌊avail * 1000 / minW⌋ : ℤ) : ℚ) / 2
        ≤ ((⌊avail * 1000 / minW⌋ : ℤ) : ℚ) := by
      have : ((⌊avail * 1000 / maxW⌋ : ℤ) : ℚ) ≤ ((⌊avail * 1000 / minW⌋ : ℤ) : ℚ) := by
        exact_mod_cast hcount
      push_cast
      linarith
    calc ⌊((⌊avail * 1000 / maxW⌋ + ⌊avail * 1000 / minW⌋ : ℤ) : ℚ) / 2⌋
        ≤ ⌊((⌊avail * 1000 / minW⌋ : ℤ) : ℚ)⌋ := Int.floor_le_floor hup
      _ = ⌊avail * 1000 / minW⌋ := Int.floor_intCast _

/-- Witness for C3 at the first record of the script's table. -/
theorem quantify_record_ordered_witness :
    ∃ minC maxC meanC : ℤ,
      quantify_record ("Picea abies", 4, 8, 100) = some ("Picea abies", minC, maxC, meanC)
      ∧ 0 ≤ minC ∧ 0 ≤ meanC ∧ 0 ≤ maxC ∧ minC ≤ meanC ∧ meanC ≤ maxC :=
  quantify_record_ordered "Picea abies" 4 8 100
    (by norm_num) (by norm_num) (by norm_num) (by norm_num)

/-- C7: on the record `("Picea abies", 4, 8, 100)` — which is the first
entry of the script's `tree_dictionary` — the computed counts are
`min_seed_count = 12500`, `max_seed_count = 25000`,
`mean_seed_count = 18750`. -/
theorem quantify_picea_abies :
    quantify_seeds [("Picea abies", 4, 8, 100)]
        = some [("Picea abies", 12500, 25000, 18750)]
      ∧ ("Picea abies", (4 : ℚ), (8 : ℚ), (100 : ℚ)) ∈ tree_dictionary := by
  constructor
  · rw [quantify_seeds_eq_map _ (by
      intro r hr
      simp only [List.mem_singleton] at hr
      subst hr
      constructor <;> norm_num)]
    norm_num [seedEstimate]
  · simp [tree_dictionary]

/-- C10: the divisions inside `quantify_seeds` are well-defined whenever
every record's `min_weight` and `max_weight` are strictly positive: under
that precondition the whole computation succeeds (no division by zero),
with no runtime guard in the code doing any checking. -/
theorem quantify_seeds_total_of_pos (records : List (String × ℚ × ℚ × ℚ))
    (hpos : ∀ r ∈ records, 0 < r.2.1 ∧ 0 < r.2.2.1) :
    (quantify_seeds records).isSome = true := by
  rw [quantify_seeds_eq_map records
    (fun r hr => ⟨ne_of_gt (hpos r hr).1, ne_of_gt (hpos r hr).2⟩)]
  rfl

/-- Witness for C10 at the script's own `tree_dictionary`. -/
theorem quantify_seeds_total_witness :
    (quantify_seeds tree_dictionary).isSome = true :=
  quantify_seeds_total_of_pos tree_dictionary (by
    intro r hr
    simp only [tree_dictionary, List.mem_cons, List.not_mem_nil, or_false] at hr
    rcases hr with h | h | h | h <;> subst h <;> constructor <;> norm_num)

/-- C6: the reference code performs no input validation.  On the record
`("Picea abies", -4, 8, 100)` — a negative `min_weight`, which the spec
says must be rejected with `InvalidInput` before any count is computed —
the code computes and outputs counts anyway, including the negative
`max_seed_count = -25000`. -/
theorem quantify_seeds_no_validation :
    quantify_seeds [("Picea abies", -4, 8, 100)]
      = some [("Picea abies", 12500, -25000, -6250)] := by
  rw [quantify_seeds_eq_map _ (by
    intro r hr
    simp only [List.mem_singleton] at hr
    subst hr
    constructor <;> norm_num)]
  norm_num [seedEstimate]

/-!
Part 2: the TrayLayoutGenerator, embedded from
`random_tray_configs.py` (labels `C`, `P. abies`, `P. cembra`,
`A. pseudoplatanus`, `S. aucuparia`) and its near-duplicate variant
`random-tray-configs.py` (same code with label `E` in place of `C`).

A plate is a list of rows of strings, built exactly as in the source:
start from a grid of empty-string cells, pin `L` at `position_L`, list
the remaining coordinates in row-major order, shuffle them, and assign
`objects[i]` to the i-th shuffled coordinate via `zip`.

The call to the library routine `random.shuffle` is embedded as an
explicit function argument `shuffle`: the seeded generator determines
that function, and its contract is that it returns a permutation of its
input.  Both script variants share the same generation body, embedded
once as `generate_plate_core` and instantiated with each file's own
`objects` constant.
-/

abbrev Plate := List (List String)

/-- Embedding of `plate_size = (4, 6)` (`random_tray_configs.py` line 22). -/
def plate_size : Nat × Nat := (4, 6)

/-- Embedding of `position_L = (2, 2)` (`random_tray_configs.py` line 25). -/
def position_L : Nat × Nat := (2, 2)

/-- Embedding of the `objects` constant of `random_tray_configs.py`
line 20: `['C']*3 + ['P. abies']*5 + ['P. cembra']*5 +
['A. pseudoplatanus']*5 + ['S. aucuparia']*5`. -/
def objects : List String :=
  List.replicate 3 "C" ++ List.replicate 5 "P. abies" ++ List.replicate 5 "P. cembra"
    ++ List.replicate 5 "A. pseudoplatanus" ++ List.replicate 5 "S. aucuparia"

/-- Embedding of the `objects` constant of the variant file
`random-tray-configs.py` line 21, which uses `E` where the other file
uses `C`. -/
def objects_v1 : List String :=
  List.replicate 3 "E" ++ List.replicate 5 "P. abies" ++ List.replicate 5 "P. cembra"
    ++ List.replicate 5 "A. pseudoplatanus" ++ List.replicate 5 "S. aucuparia"

/-- Embedding of `[['' for _ in range(plate_size[1])] for _ in
range(plate_size[0])]`. -/
def emptyPlateOf (sz : Nat × Nat) : Plate :=
  (List.range sz.1).map fun _ => (List.range sz.2).map fun _ => ""

/-- Embedding of the statement `plate[pos[0]][pos[1]] = v`: replace one
cell of the grid, leaving the grid unchanged when the row index is out
of range (in Python that case would raise; it never arises in the
scripts). -/
def setCell (p : Plate) (pos : Nat × Nat) (v : String) : Plate :=
  p.set pos.1 ((p.getD pos.1 []).set pos.2 v)

/-- Reading the cell `p[pos[0]][pos[1]]`, with the empty string for an
out-of-range index. -/
def cellAt (p : Plate) (pos : Nat × Nat) : String :=
  (p.getD pos.1 []).getD pos.2 ""

/-- Embedding of the comprehension `[(r, c) for r in range(rows) for c
in range(cols) if (r, c) != position_L]`. -/
def availablePositionsOf (sz posL : Nat × Nat) : List (Nat × Nat) :=
  (List.range sz.1).flatMap fun r =>
    ((List.range sz.2).map fun c => (r, c)).filter fun rc => rc ≠ posL

/-- The concrete coordinate list the scripts build: all cells of the
4 by 6 grid except `position_L`, in row-major order. -/
def availablePositions : List (Nat × Nat) :=
  availablePositionsOf plate_size position_L

/-- Embedding of the assignment loop `for obj, (r, c) in zip(objects,
available_positions): plate[r][c] = obj`. -/
def writeCells (pairs : List (String × (Nat × Nat))) (p : Plate) : Plate :=
  pairs.foldl (fun g ov => setCell g ov.2 ov.1) p

/-- Embedding of `generate_plate` (`random_tray_configs.py` lines
28-41), shared by both script variants: the grid shape, the pinned
position and the label list are the module constants the function
reads, and `shuffle` is the (seeded) `random.shuffle` permutation
action on the coordinate list. -/
def generate_plate_core (sz posL : Nat × Nat) (objs : List String)
    (shuffle : List (Nat × Nat) → List (Nat × Nat)) : Plate :=
  let plate := setCell (emptyPlateOf sz) posL "L"
  let shuffled := shuffle (availablePositionsOf sz posL)
  writeCells (objs.zip shuffled) plate

/-- The `generate_plate` of `random_tray_configs.py`, reading its
module constants. -/
def generate_plate (shuffle : List (Nat × Nat) → List (Nat × Nat)) : Plate :=
  generate_plate_core plate_size position_L objects shuffle

/-- The `generate_plate` of the variant `random-tray-configs.py`,
identical code reading that file's `objects` constant. -/
def generate_plate_v1 (shuffle : List (Nat × Nat) → List (Nat × Nat)) : Plate :=
  generate_plate_core plate_size position_L objects_v1 shuffle

/-- All 24 coordinates of the grid in row-major order. -/
def rowMajorPositions : List (Nat × Nat) :=
  (List.range plate_size.1).flatMap fun r =>
    (List.range plate_size.2).map fun c => (r, c)

/-- The grid has `sz.1` rows, each of length `sz.2`. -/
def HasShapeOf (sz : Nat × Nat) (p : Plate) : Prop :=
  p.length = sz.1 ∧ ∀ row ∈ p, row.length = sz.2

instance (sz : Nat × Nat) (p : Plate) : Decidable (HasShapeOf sz p) :=
  inferInstanceAs (Decidable (p.length = sz.1 ∧ ∀ row ∈ p, row.length = sz.2))

lemma getD_set_ne {α : Type} {l : List α} {i j : Nat} {a d : α} (h : i ≠ j) :
    (l.set i a).getD j d = l.getD j d := by
  rw [List.getD_eq_getElem?_getD, List.getD_eq_getElem?_getD, List.getElem?_set_ne h]

lemma getD_set_self {α : Type} {l : List α} {i : Nat} {a d : α} (h : i < l.length) :
    (l.set i a).getD i d = a := by
  rw [List.getD_eq_getElem?_getD, List.getElem?_set_self h, Option.getD_some]

lemma getD_row_length {sz : Nat × Nat} {p : Plate} (hs : HasShapeOf sz p)
    {r : Nat} (h : r < sz.1) : (p.getD r []).length = sz.2 := by
  have hlt : r < p.length := by rw [hs.1]; exact h
  rw [List.getD_eq_getElem?_getD, List.getElem?_eq_getElem hlt, Option.getD_some]
  exact hs.2 _ (List.getElem_mem hlt)

lemma hasShapeOf_setCell {sz : Nat × Nat} {p : Plate} (hs : HasShapeOf sz p)
    (pos : Nat × Nat) (v : String) : HasShapeOf sz (setCell p pos v) := by
  by_cases hlt : pos.1 < p.length
  · refine ⟨by rw [setCell, List.length_set, hs.1], ?_⟩
    intro row hrow
    rcases List.mem_or_eq_of_mem_set hrow with hr | hr
    · exact hs.2 row hr
    · subst hr
      rw [List.length_set]
      exact getD_row_length hs (by rw [← hs.1]; exact hlt)
  · rw [setCell, List.set_eq_of_length_le (le_of_not_lt hlt)]
    exact hs

lemma cellAt_setCell_ne {p : Plate} {pos q : Nat × Nat} (v : String) (h : q ≠ pos) :
    cellAt (setCell p pos v) q = cellAt p q := by
  obtain ⟨qr, qc⟩ := q
  obtain ⟨pr, pc⟩ := pos
  by_cases hr : pr = qr
  · subst hr
    have hc : pc ≠ qc := by
      intro hc
      exact h (by rw [hc])
    unfold cellAt setCell
    by_cases hlt : pr < p.length
    · simp only
      rw [getD_set_self hlt, getD_set_ne hc]
    · rw [List.set_eq_of_length_le (le_of_not_lt hlt)]
  · unfold cellAt setCell
    simp only
    rw [getD_set_ne hr]

lemma cellAt_setCell_self {p : Plate} {pos : Nat × Nat} (v : String)
    (h1 : pos.1 < p.length) (h2 : pos.2 < (p.getD pos.1 []).length) :
    cellAt (setCell p pos v) pos = v := by
  unfold cellAt setCell
  rw [getD_set_self h1, getD_set_self h2]

lemma writeCells_cons (ov : String × (Nat × Nat)) (pairs : List (String × (Nat × Nat)))
    (p : Plate) : writeCells (ov :: pairs) p = writeCells pairs (setCell p ov.2 ov.1) :=
  rfl

lemma hasShapeOf_writeCells {sz : Nat × Nat} (pairs : List (String × (Nat × Nat)))
    {p : Plate} (hs : HasShapeOf sz p) : HasShapeOf sz (writeCells pairs p) := by
  induction pairs generalizing p with
  | nil => exact hs
  | cons ov rest ih => exact ih (hasShapeOf_setCell hs ov.2 ov.1)

lemma cellAt_writeCells_not_mem (pairs : List (String × (Nat × Nat))) (p : Plate)
    (q : Nat × Nat) (h : q ∉ pairs.map Prod.snd) :
    cellAt (writeCells pairs p) q = cellAt p q := by
  induction pairs generalizing p with
  | nil => rfl
  | cons ov rest ih =>
      simp only [List.map_cons, List.mem_cons, not_or] at h
      rw [writeCells_cons, ih _ h.2, cellAt_setCell_ne _ h.1]

lemma cellAt_writeCells_mem {sz : Nat × Nat} (pairs : List (String × (Nat × Nat)))
    (p : Plate) (hnd : (pairs.map Prod.snd).Nodup)
    (hb : ∀ q ∈ pairs.map Prod.snd, q.1 < sz.1 ∧ q.2 < sz.2)
    (hs : HasShapeOf sz p) :
    ∀ ov ∈ pairs, cellAt (writeCells pairs p) ov.2 = ov.1 := by
  induction pairs generalizing p with
  | nil =>
      intro ov hov
      cases hov
  | cons hd rest ih =>
      intro ov hov
      simp only [List.map_cons, List.nodup_cons] at hnd
      rcases List.mem_cons.mp hov with heq | hmem
      · subst heq
        rw [writeCells_cons, cellAt_writeCells_not_mem _ _ _ hnd.1]
        have hbhd := hb ov.2 (by simp)
        exact cellAt_setCell_self _ (by rw [hs.1]; exact hbhd.1)
          (by rw [getD_row_length hs hbhd.1]; exact hbhd.2)
      · rw [writeCells_cons]
        exact ih _ hnd.2 (fun q hq => hb q (List.mem_cons_of_mem _ hq))
          (hasShapeOf_setCell hs hd.2 hd.1) ov hmem

lemma map_cellAt_of_zip (g : Plate) (objs : List String) :
    ∀ ps : List (Nat × Nat), objs.length = ps.length →
      (∀ ov ∈ objs.zip ps, cellAt g ov.2 = ov.1) → ps.map (cellAt g) = objs := by
  induction objs with
  | nil =>
      intro ps hlen _
      cases ps with
      | nil => rfl
      | cons _ _ => simp at hlen
  | cons o os ih =>
      intro ps hlen h
      cases ps with
      | nil => simp at hlen
      | cons q qs =>
          simp only [List.zip_cons_cons, List.mem_cons] at h
          simp only [List.map_cons]
          rw [h (o, q) (Or.inl rfl)]
          have := ih qs (by simpa using hlen)
            (fun ov hov => h ov (Or.inr hov))
          rw [this]

/-- C1: for any label list of length 23 not containing the pinned label
`L` or the sentinel `""` (in particular the scripts' own `objects`
list), and any shuffle that permutes the 23 available coordinates — the
contract of `random.shuffle` — the generated 4 by 6 tray has `L` at
`position_L`, contains `L` exactly once, leaves no cell at the
unassigned sentinel, and the multiset of labels over the other 23 cells
is exactly the multiset of fill labels. -/
theorem generate_plate_layout_correct (objs : List String)
    (shuffle : List (Nat × Nat) → List (Nat × Nat))
    (hlen : objs.length = 23)
    (hperm : (shuffle availablePositions).Perm availablePositions)
    (hL : "L" ∉ objs) (hsent : "" ∉ objs) :
    cellAt (generate_plate_core plate_size position_L objs shuffle) position_L = "L"
    ∧ (availablePositions.map (cellAt (generate_plate_core plate_size position_L objs shuffle))
        : Multiset String) = (objs : Multiset String)
    ∧ (rowMajorPositions.map
        (cellAt (generate_plate_core plate_size position_L objs shuffle))).count "L" = 1
    ∧ (∀ q ∈ rowMajorPositions,
        cellAt (generate_plate_core plate_size position_L objs shuffle) q ≠ "")
    ∧ HasShapeOf plate_size (generate_plate_core plate_size position_L objs shuffle) := by
  have d1 : availablePositions.Nodup := by decide
  have d2 : ∀ q ∈ availablePositions, q.1 < plate_size.1 ∧ q.2 < plate_size.2 := by decide
  have d3 : position_L ∉ availablePositions := by decide
  have d4 : availablePositions.length = 23 := by decide
  have d5 : HasShapeOf plate_size (setCell (emptyPlateOf plate_size) position_L "L") := by
    decide
  have d6 : cellAt (setCell (emptyPlateOf plate_size) position_L "L") position_L = "L" := by
    decide
  have d7 : rowMajorPositions.Perm (position_L :: availablePositions) := by decide
  set shuffled := shuffle availablePositions with hshuffled
  set g := generate_plate_core plate_size position_L objs shuffle with hg
  have hcore : g = writeCells (objs.zip shuffled)
      (setCell (emptyPlateOf plate_size) position_L "L") := rfl
  have hlen2 : objs.length = shuffled.length := by
    rw [hlen, hperm.length_eq, d4]
  have hsnd : (objs.zip shuffled).map Prod.snd = shuffled :=
    List.map_snd_zip _ _ (le_of_eq hlen2.symm)
  have hnd : ((objs.zip shuffled).map Prod.snd).Nodup := by
    rw [hsnd]
    exact hperm.symm.nodup d1
  have hb : ∀ q ∈ (objs.zip shuffled).map Prod.snd, q.1 < plate_size.1 ∧ q.2 < plate_size.2 := by
    rw [hsnd]
    intro q hq
    exact d2 q (hperm.mem_iff.mp hq)
  have hwrites : ∀ ov ∈ objs.zip shuffled, cellAt g ov.2 = ov.1 := by
    rw [hcore]
    exact cellAt_writeCells_mem _ _ hnd hb d5
  have hnotmem : position_L ∉ (objs.zip shuffled).map Prod.snd := by
    rw [hsnd]
    intro hmem
    exact d3 (hperm.mem_iff.mp hmem)
  have hpin : cellAt g position_L = "L" := by
    rw [hcore, cellAt_writeCells_not_mem _ _ _ hnotmem]
    exact d6
  have hmapeq : shuffled.map (cellAt g) = objs :=
    map_cellAt_of_zip g objs shuffled hlen2 hwrites
  have havailperm : (availablePositions.map (cellAt g)).Perm objs := by
    have hstep := hperm.symm.map (cellAt g)
    rw [hmapeq] at hstep
    exact hstep
  refine ⟨hpin, Multiset.coe_eq_coe.mpr havailperm, ?_, ?_, ?_⟩
  · rw [(d7.map (cellAt g)).count_eq "L", List.map_cons, List.count_cons, hpin,
      havailperm.count_eq "L", List.count_eq_zero.mpr hL]
    simp
  · intro q hq
    rcases List.mem_cons.mp (d7.mem_iff.mp hq) with hqL | hq3
    · rw [hqL, hpin]
      decide
    · have hmem1 : cellAt g q ∈ availablePositions.map (cellAt g) :=
        List.mem_map_of_mem _ hq3
      have hmem2 : cellAt g q ∈ objs := havailperm.mem_iff.mp hmem1
      intro hcon
      rw [hcon] at hmem2
      exact hsent hmem2
  · rw [hcore]
    exact hasShapeOf_writeCells _ d5

/-- Witness for C1: the scripts' own `objects` list (23 labels) with
the identity shuffle. -/
theorem generate_plate_layout_witness :
    cellAt (generate_plate_core plate_size position_L objects id) position_L = "L"
    ∧ (availablePositions.map (cellAt (generate_plate_core plate_size position_L objects id))
        : Multiset String) = (objects : Multiset String)
    ∧ (rowMajorPositions.map
        (cellAt (generate_plate_core plate_size position_L objects id))).count "L" = 1
    ∧ (∀ q ∈ rowMajorPositions,
        cellAt (generate_plate_core plate_size position_L objects id) q ≠ "")
    ∧ HasShapeOf plate_size (generate_plate_core plate_size position_L objects id) :=
  generate_plate_layout_correct objects id (by decide) (by decide) (by decide) (by decide)

/-- C4: `generate_plate` is a deterministic function of the seeded
shuffle: two runs whose random sources produce the same permutation of
the coordinate list (in particular, two runs from the same recorded
seed with the same `objects` ordering) return identical trays. -/
theorem generate_plate_deterministic
    (s1 s2 : List (Nat × Nat) → List (Nat × Nat))
    (h : s1 availablePositions = s2 availablePositions) :
    generate_plate s1 = generate_plate s2 := by
  show writeCells (objects.zip (s1 availablePositions))
      (setCell (emptyPlateOf plate_size) position_L "L")
    = writeCells (objects.zip (s2 availablePositions))
      (setCell (emptyPlateOf plate_size) position_L "L")
  rw [h]

/-- Witness for C4: the same shuffle twice. -/
theorem generate_plate_deterministic_witness :
    generate_plate id = generate_plate id :=
  generate_plate_deterministic id id rfl

/-- C5: the reference code never checks the fill-label count.  Called
with only 22 labels (the scripts' list minus one control) for the 23
free cells of the 4 by 6 grid, it raises nothing: it silently returns
an under-filled grid in which exactly one cell — here cell `(3, 5)`
under the identity shuffle — is left at the unassigned sentinel. -/
theorem generate_plate_silent_underfill :
    (objects.drop 1).length = 22
    ∧ cellAt (generate_plate_core plate_size position_L (objects.drop 1) id) (3, 5) = ""
    ∧ (rowMajorPositions.map
        (cellAt (generate_plate_core plate_size position_L (objects.drop 1) id))).count ""
      = 1 := by
  decide

/-- Relabelling map from the variant file's labels to the other file's:
the variants differ only in using `E` versus `C` for the control pots. -/
def renameLabel (s : String) : String := if s = "E" then "C" else s

/-- Applying a label map to every cell of a grid. -/
def mapGrid (f : String → String) (p : Plate) : Plate := p.map (List.map f)

lemma mapGrid_setCell (f : String → String) (p : Plate) (pos : Nat × Nat) (v : String) :
    mapGrid f (setCell p pos v) = setCell (mapGrid f p) pos (f v) := by
  unfold mapGrid setCell
  rw [List.map_set]
  congr 1
  rw [List.map_set]
  congr 1
  rw [List.getD_eq_getElem?_getD, List.getD_eq_getElem?_getD, List.getElem?_map]
  cases p[pos.1]? <;> rfl

lemma mapGrid_writeCells (f : String → String) (pairs : List (String × (Nat × Nat)))
    (p : Plate) :
    mapGrid f (writeCells pairs p)
      = writeCells (pairs.map fun ov => (f ov.1, ov.2)) (mapGrid f p) := by
  induction pairs generalizing p with
  | nil => rfl
  | cons hd rest ih =>
      rw [writeCells_cons, ih, mapGrid_setCell]
      rfl

/-- C8: the two script variants are behaviourally identical up to label
renaming: for the same shuffle (same rng seed and state), renaming `E`
to `C` in the tray produced by `random-tray-configs.py` gives exactly
the tray produced by `random_tray_configs.py`. -/
theorem variants_equivalent (shuffle : List (Nat × Nat) → List (Nat × Nat)) :
    mapGrid renameLabel (generate_plate_v1 shuffle) = generate_plate shuffle := by
  show mapGrid renameLabel
      (writeCells (objects_v1.zip (shuffle availablePositions))
        (setCell (emptyPlateOf plate_size) position_L "L"))
    = writeCells (objects.zip (shuffle availablePositions))
        (setCell (emptyPlateOf plate_size) position_L "L")
  rw [mapGrid_writeCells]
  have h1 : mapGrid renameLabel (setCell (emptyPlateOf plate_size) position_L "L")
      = setCell (emptyPlateOf plate_size) position_L "L" := by decide
  have h2 : objects_v1.map renameLabel = objects := by decide
  rw [h1, ← h2, List.zip_map_left]
  congr 1

/-- The module state a `generate_plate` call can see: the constants
`objects`, `plate_size`, `position_L` and the state of the `random`
generator, which `random.shuffle` consumes and advances. -/
structure TrayWorld (σ : Type) where
  objects : List String
  plate_size : Nat × Nat
  position_L : Nat × Nat
  rng : σ

/-- Embedding of a `generate_plate` call as a state transformer over
`TrayWorld`: `shuffleStep` is the action of `random.shuffle` on the rng
state, returning the permuted list and the advanced state. -/
def generate_plate_st {σ : Type}
    (shuffleStep : σ → List (Nat × Nat) → List (Nat × Nat) × σ)
    (w : TrayWorld σ) : Plate × TrayWorld σ :=
  let avail := availablePositionsOf w.plate_size w.position_L
  let res := shuffleStep w.rng avail
  let plate := setCell (emptyPlateOf w.plate_size) w.position_L "L"
  (writeCells (w.objects.zip res.1) plate, { w with rng := res.2 })

/-- C9: a `generate_plate` call leaves the label list, the grid shape
and the pinned position untouched, and its only state change is the
advance of the rng consumed by the shuffle; the tray it returns is the
freshly built pure result of its inputs and the drawn permutation. -/
theorem generate_plate_frame {σ : Type}
    (shuffleStep : σ → List (Nat × Nat) → List (Nat × Nat) × σ)
    (w : TrayWorld σ) :
    (generate_plate_st shuffleStep w).2.objects = w.objects
    ∧ (generate_plate_st shuffleStep w).2.plate_size = w.plate_size
    ∧ (generate_plate_st shuffleStep w).2.position_L = w.position_L
    ∧ (generate_plate_st shuffleStep w).2.rng
        = (shuffleStep w.rng (availablePositionsOf w.plate_size w.position_L)).2
    ∧ (generate_plate_st shuffleStep w).1
        = generate_plate_core w.plate_size w.position_L w.objects
            (fun l => (shuffleStep w.rng l).1) :=
  ⟨rfl, rfl, rfl, rfl, rfl⟩
